import Mathlib

/-!
Shallow embedding of the kind-tagged quantity wrapper
(src/include/units/quantity_kind.h of JohelEGP/units-1).

The wrapper itself (class quantity_kind, its constructors, member and
hidden-friend operators, and the detail helpers make_quantity_kind and
downcasted_kind) is translated from the source.  Its two collaborators,
the quantity system (units/quantity.h) and the kind hierarchy with its
downcast facility (units/kind.h), are not part of the source tree and
are modelled from the specification at their interface boundary:

* dimensions form a commutative group; here they are instantiated as
  exponent vectors over two base dimensions (length, time), with the
  dimensionless dimension as the zero vector;
* units are coherent: each quantity is expressed in the canonical unit
  of its dimension, so two quantities are mutually convertible exactly
  when their dimensions are equal;
* numeric representations are instantiated with two integral types
  (i32 and i64); mixed-representation arithmetic is instantiated with
  the equal-representation case, and safe convertibility is widening
  (never narrowing).

Operations that C++ rejects at overload-resolution / constraint-check
time are embedded as Option-valued functions returning none: a `none`
result models a program that fails to type-check, never a runtime error.
-/

namespace UnitsQK

/-- Modelled from the spec: a dimension is the physical category of a
quantity; dimensions multiply, divide and invert.  Instantiated as the
exponent vector over two base dimensions. -/
structure Dimension where
  length : Int
  time : Int
  deriving DecidableEq, Repr

/-- Modelled from the spec: the dimensionless (one) dimension. -/
def dimOne : Dimension := ⟨0, 0⟩

/-- Modelled from the spec: product of two dimensions (exponents add). -/
def dimMul (a b : Dimension) : Dimension := ⟨a.length + b.length, a.time + b.time⟩

/-- Modelled from the spec: quotient of two dimensions (exponents subtract). -/
def dimDiv (a b : Dimension) : Dimension := ⟨a.length - b.length, a.time - b.time⟩

/-- Modelled from the spec: inverse of a dimension (exponents negate). -/
def dimInv (a : Dimension) : Dimension := ⟨-a.length, -a.time⟩

/-- Modelled from the spec: the numeric representation types this
development instantiates the wrapper with (both integral, so %, ++ and
-- are available at the quantity layer). -/
inductive RepTy
  | i32
  | i64
  deriving DecidableEq, Repr

/-- Modelled from the spec: safe convertibility between representation
types — no narrowing, no loss of precision class (widening only). -/
def safe_convertible (src tgt : RepTy) : Bool :=
  match src, tgt with
  | .i32, _ => true
  | .i64, .i64 => true
  | .i64, .i32 => false

/-- Modelled from the spec: a bare numeric value — a scalar carrying its
representation type; it is not a quantity. -/
structure Value where
  ty : RepTy
  val : Int
  deriving DecidableEq, Repr

/-- Modelled from the spec: a plain (un-kinded) quantity of the quantity
collaborator — a dimension, a representation type and a magnitude in the
coherent unit of the dimension. -/
structure Quantity where
  dim : Dimension
  rep : RepTy
  value : Int
  deriving DecidableEq, Repr

/-- Modelled from the spec: quantity addition — defined exactly when the
dimensions agree and the representations agree (dimension-preserving). -/
def qAdd (a b : Quantity) : Option Quantity :=
  if a.dim = b.dim ∧ a.rep = b.rep then some ⟨a.dim, a.rep, a.value + b.value⟩ else none

/-- Modelled from the spec: quantity subtraction — same gate as addition. -/
def qSub (a b : Quantity) : Option Quantity :=
  if a.dim = b.dim ∧ a.rep = b.rep then some ⟨a.dim, a.rep, a.value - b.value⟩ else none

/-- Modelled from the spec: quantity multiplication — dimensions multiply;
defined when the representations agree. -/
def qMul (a b : Quantity) : Option Quantity :=
  if a.rep = b.rep then some ⟨dimMul a.dim b.dim, a.rep, a.value * b.value⟩ else none

/-- Modelled from the spec: quantity division — dimensions divide; defined
when the representations agree (truncating like C++ integer division). -/
def qDiv (a b : Quantity) : Option Quantity :=
  if a.rep = b.rep then some ⟨dimDiv a.dim b.dim, a.rep, Int.tdiv a.value b.value⟩ else none

/-- Modelled from the spec: quantity × bare value — dimension unchanged;
defined when the value's type matches the representation. -/
def qMulV (a : Quantity) (v : Value) : Option Quantity :=
  if v.ty = a.rep then some ⟨a.dim, a.rep, a.value * v.val⟩ else none

/-- Modelled from the spec: bare value × quantity — dimension unchanged. -/
def qVMul (v : Value) (a : Quantity) : Option Quantity :=
  if v.ty = a.rep then some ⟨a.dim, a.rep, v.val * a.value⟩ else none

/-- Modelled from the spec: quantity ÷ bare value — dimension unchanged. -/
def qDivV (a : Quantity) (v : Value) : Option Quantity :=
  if v.ty = a.rep then some ⟨a.dim, a.rep, Int.tdiv a.value v.val⟩ else none

/-- Modelled from the spec: bare value ÷ quantity — the dimension inverts. -/
def qVDiv (v : Value) (a : Quantity) : Option Quantity :=
  if v.ty = a.rep then some ⟨dimInv a.dim, a.rep, Int.tdiv v.val a.value⟩ else none

/-- Modelled from the spec: quantity % bare value — dimension unchanged
(truncating remainder like C++). -/
def qModV (a : Quantity) (v : Value) : Option Quantity :=
  if v.ty = a.rep then some ⟨a.dim, a.rep, Int.tmod a.value v.val⟩ else none

/-- Modelled from the spec: quantity % quantity — defined for quantities of
equal dimension and representation, dimension-preserving. -/
def qModQ (a b : Quantity) : Option Quantity :=
  if a.dim = b.dim ∧ a.rep = b.rep then some ⟨a.dim, a.rep, Int.tmod a.value b.value⟩ else none

/-- Modelled from the spec: quantity increment (adds one in the quantity's
own unit; available for the integral representations used here). -/
def qInc (a : Quantity) : Quantity := ⟨a.dim, a.rep, a.value + 1⟩

/-- Modelled from the spec: quantity decrement. -/
def qDec (a : Quantity) : Quantity := ⟨a.dim, a.rep, a.value - 1⟩

/-- Modelled from the spec: the kind hierarchy's base kind — the most
general kind of a family, defined over a dimension. -/
structure BaseKind where
  id : Nat
  dim : Dimension
  deriving DecidableEq, Repr

/-- Modelled from the spec: a kind — a semantic tag carrying its base kind
and the dimension it is defined over. -/
structure Kind where
  id : Nat
  base : BaseKind
  dim : Dimension
  deriving DecidableEq, Repr

/-- Modelled from the spec: the kind hierarchy's downcast resolution —
given a base kind and a target dimension, the single most specific
declared kind with that base kind and that dimension, or none when the
hierarchy declares no such kind.  The hierarchy is a list of declared
kinds with at most one match per (base kind, dimension) pair. -/
def downcast_kind (h : List Kind) (b : BaseKind) (d : Dimension) : Option Kind :=
  h.find? (fun k => decide (k.base = b ∧ k.dim = d))

/-- Embedding of class quantity_kind (quantity_kind.h, lines 66-251): a
kind tag together with the single embedded quantity q_. -/
structure QuantityKind where
  kind : Kind
  q : Quantity
  deriving DecidableEq, Repr

/-- The type-formation invariant of quantity_kind (line 66): the unit U of
quantity_kind is a UnitOf the kind's dimension, so the embedded
quantity's dimension equals the kind's dimension. -/
def QuantityKind.wf (qk : QuantityKind) : Prop := qk.q.dim = qk.kind.dim

instance (qk : QuantityKind) : Decidable qk.wf := by
  unfold QuantityKind.wf
  infer_instance

/-- Result of an operation that re-derives the kind: either a kind-tagged
quantity, or — modelled from the spec (section 4.4) — the un-kinded
plain quantity fallback when the hierarchy declares no specific kind. -/
inductive QKResult
  | kinded (qk : QuantityKind)
  | plain (q : Quantity)
  deriving DecidableEq, Repr

/-- The kind tag of a kind re-derivation result, if it has one. -/
def QKResult.kindOf : QKResult → Option Kind
  | .kinded qk => some qk.kind
  | .plain _ => none

/-- The underlying quantity of a kind re-derivation result. -/
def QKResult.commonQ : QKResult → Quantity
  | .kinded qk => qk.q
  | .plain q0 => q0

/-- Embedding of detail::make_quantity_kind (lines 36-43): wrap a quantity
with the given kind, keeping the quantity's unit and representation. -/
def make_quantity_kind (K : Kind) (q : Quantity) : QuantityKind := ⟨K, q⟩

/-- Embedding of detail::downcasted_kind (lines 45-52): rewrap a quantity
with the downcast of the given base kind at the quantity's dimension.
The none branch is modelled from the spec (section 4.4): when the
hierarchy declares no specific kind, the result degrades to the
un-kinded plain quantity. -/
def downcasted_kind (h : List Kind) (b : BaseKind) (q : Quantity) : QKResult :=
  match downcast_kind h b q.dim with
  | some K => QKResult.kinded (make_quantity_kind K q)
  | none => QKResult.plain q

/-- Embedding of the constructor from a bare numeric value (lines 83-85):
requires the kind's dimension to be the dimensionless one dimension and
the value to be safely convertible to the representation; otherwise the
construction does not type-check (none).  The target quantity_kind type
is given by its kind and representation. -/
def qkOfValue (K : Kind) (rep : RepTy) (v : Value) : Option QuantityKind :=
  if K.dim = dimOne ∧ safe_convertible v.ty rep = true then
    some ⟨K, ⟨K.dim, rep, v.val⟩⟩
  else none

/-- Embedding of the explicit constructor from a quantity (lines 87-89):
requires the source quantity to be constructible into the wrapper's
quantity type — with coherent units, its dimension equals the kind's
dimension and its representation matches. -/
def qkOfQuantity (K : Kind) (rep : RepTy) (p : Quantity) : Option QuantityKind :=
  if p.dim = K.dim ∧ p.rep = rep then some ⟨K, p⟩ else none

/-- Embedding of common() (line 98): the embedded quantity, by value. -/
def qkCommon (qk : QuantityKind) : Quantity := qk.q

/-- Embedding of the static factory zero() (lines 100-104). -/
def qkZero (K : Kind) (rep : RepTy) : QuantityKind := ⟨K, ⟨K.dim, rep, 0⟩⟩

/-- Embedding of the static factory one() (lines 106-110): wraps the
quantity one of the wrapper's own quantity type — same dimension. -/
def qkOne (K : Kind) (rep : RepTy) : QuantityKind := ⟨K, ⟨K.dim, rep, 1⟩⟩

/-- Embedding of pre-increment (lines 136-141): mutates the receiver and
returns it; state passing returns (returned value, new receiver). -/
def qkPreInc (qk : QuantityKind) : QuantityKind × QuantityKind :=
  (⟨qk.kind, qInc qk.q⟩, ⟨qk.kind, qInc qk.q⟩)

/-- Embedding of post-increment (lines 143-147): wraps the old quantity
value q_++ returns, while the receiver is incremented in place. -/
def qkPostInc (qk : QuantityKind) : QuantityKind × QuantityKind :=
  (⟨qk.kind, qk.q⟩, ⟨qk.kind, qInc qk.q⟩)

/-- Embedding of pre-decrement (lines 149-154). -/
def qkPreDec (qk : QuantityKind) : QuantityKind × QuantityKind :=
  (⟨qk.kind, qDec qk.q⟩, ⟨qk.kind, qDec qk.q⟩)

/-- Embedding of post-decrement (lines 156-160). -/
def qkPostDec (qk : QuantityKind) : QuantityKind × QuantityKind :=
  (⟨qk.kind, qk.q⟩, ⟨qk.kind, qDec qk.q⟩)

/-- Modelled from the spec: the QuantityKindEquivalentTo relation — two
kind-quantities are equivalent when they share the same base kind and
their underlying quantities are mutually convertible (equal dimension
and, in this instantiation, equal representation). -/
def equivalentQK (a b : QuantityKind) : Prop :=
  a.kind.base = b.kind.base ∧ a.q.dim = b.q.dim ∧ a.q.rep = b.q.rep

instance (a b : QuantityKind) : Decidable (equivalentQK a b) := by
  unfold equivalentQK
  infer_instance

/-- Embedding of the hidden friend operator* (quantity_kind, Value)
(lines 209-214): same kind, scaled magnitude. -/
def qkMulValue (qk : QuantityKind) (v : Value) : Option QuantityKind :=
  (qMulV qk.q v).map (make_quantity_kind qk.kind)

/-- Embedding of the hidden friend operator* (Value, quantity_kind)
(lines 216-221). -/
def valueMulQK (v : Value) (qk : QuantityKind) : Option QuantityKind :=
  (qVMul v qk.q).map (make_quantity_kind qk.kind)

/-- Embedding of the hidden friend operator/ (quantity_kind, Value)
(lines 223-228): same kind, scaled magnitude. -/
def qkDivValue (qk : QuantityKind) (v : Value) : Option QuantityKind :=
  (qDivV qk.q v).map (make_quantity_kind qk.kind)

/-- Embedding of the hidden friend operator/ (Value, quantity_kind)
(lines 230-235): the dimension inverts, so the result goes through
detail::downcasted_kind of the kind's base kind. -/
def valueDivQK (h : List Kind) (v : Value) (qk : QuantityKind) : Option QKResult :=
  (qVDiv v qk.q).map (downcasted_kind h qk.kind.base)

/-- Embedding of the hidden friend operator% (quantity_kind, Value)
(lines 237-242): same kind. -/
def qkModValue (qk : QuantityKind) (v : Value) : Option QuantityKind :=
  (qModV qk.q v).map (make_quantity_kind qk.kind)

/-- Embedding of operator* (QuantityKind, Quantity) (lines 270-275):
dimension changes, kind re-derived through detail::downcasted_kind. -/
def qkMulQuantity (h : List Kind) (qk : QuantityKind) (p : Quantity) : Option QKResult :=
  (qMul qk.q p).map (downcasted_kind h qk.kind.base)

/-- Embedding of operator* (Quantity, QuantityKind) (lines 277-282). -/
def quantityMulQK (h : List Kind) (p : Quantity) (qk : QuantityKind) : Option QKResult :=
  (qMul p qk.q).map (downcasted_kind h qk.kind.base)

/-- Embedding of operator/ (QuantityKind, Quantity) (lines 284-289). -/
def qkDivQuantity (h : List Kind) (qk : QuantityKind) (p : Quantity) : Option QKResult :=
  (qDiv qk.q p).map (downcasted_kind h qk.kind.base)

/-- Embedding of operator/ (Quantity, QuantityKind) (lines 291-296). -/
def quantityDivQK (h : List Kind) (p : Quantity) (qk : QuantityKind) : Option QKResult :=
  (qDiv p qk.q).map (downcasted_kind h qk.kind.base)

/-- Embedding of operator+ (QK1, QK2) for equivalent kind-quantities
(lines 256-261): the result is tagged with the left operand's kind. -/
def qkAdd (a b : QuantityKind) : Option QuantityKind :=
  if equivalentQK a b then (qAdd a.q b.q).map (make_quantity_kind a.kind) else none

/-- Embedding of operator- (QK1, QK2) for equivalent kind-quantities
(lines 263-268). -/
def qkSub (a b : QuantityKind) : Option QuantityKind :=
  if equivalentQK a b then (qSub a.q b.q).map (make_quantity_kind a.kind) else none

/-- Embedding of operator% (QK1, QK2) for equivalent kind-quantities
(lines 305-310): the result is tagged with the left operand's kind. -/
def qkMod (a b : QuantityKind) : Option QuantityKind :=
  if equivalentQK a b then (qModQ a.q b.q).map (make_quantity_kind a.kind) else none

/-- Embedding of operator== between kind-quantities (line 250 for the same
type, lines 319-324 for equivalent types): defined only for equivalent
kind-quantities with equality-comparable underlying quantities;
compares the extracted underlying quantities. -/
def qkEq (a b : QuantityKind) : Option Bool :=
  if equivalentQK a b then some (decide (a.q.value = b.q.value)) else none

/-- The possible right-hand sides of the compound modulo operator: a bare
numeric value, a plain (un-kinded) quantity, or a kind-quantity. -/
inductive ModRhs
  | value (v : Value)
  | plainQuantity (p : Quantity)
  | kindQuantity (qk2 : QuantityKind)

/-- Embedding of the overload set of operator%= (lines 192-205).  The
Rep2 overload (lines 192-198) requires !Quantity of Rep2, so it accepts
bare values only; the quantity_kind overload (lines 200-205) accepts the
receiver's own type, which equivalent kind-quantities implicitly convert
to (lines 91-93).  A plain quantity right-hand side matches neither
overload, so the call does not type-check (none). -/
def qkModAssign (qk : QuantityKind) : ModRhs → Option QuantityKind
  | .value v => (qModV qk.q v).map (make_quantity_kind qk.kind)
  | .plainQuantity _ => none
  | .kindQuantity qk2 =>
      if equivalentQK qk qk2 then (qModQ qk.q qk2.q).map (make_quantity_kind qk.kind) else none

/-! Concrete instances used by witnesses and counterexamples: a length
base kind with a Radius kind, declared specializations for inverse
length and squared length, and a dimensionless kind. -/

/-- The length dimension of the concrete instantiation. -/
def dimLength : Dimension := ⟨1, 0⟩

/-- The base kind over length. -/
def baseLen : BaseKind := ⟨0, dimLength⟩

/-- A Radius kind: base kind over length, dimension length. -/
def kindRadius : Kind := ⟨0, baseLen, dimLength⟩

/-- A declared specialization of the length base kind at dimension
one over length. -/
def kindInvLen : Kind := ⟨1, baseLen, dimInv dimLength⟩

/-- A declared specialization of the length base kind at dimension
length squared. -/
def kindLenSq : Kind := ⟨2, baseLen, dimMul dimLength dimLength⟩

/-- A base kind over the dimensionless dimension. -/
def baseDimless : BaseKind := ⟨1, dimOne⟩

/-- A dimensionless kind under baseDimless. -/
def kindScalar : Kind := ⟨3, baseDimless, dimOne⟩

/-- The concrete kind hierarchy declaring the kinds above. -/
def hierarchy0 : List Kind := [kindRadius, kindInvLen, kindLenSq, kindScalar]

/-- A radius of 5 (i64 representation). -/
def rq5 : QuantityKind := ⟨kindRadius, ⟨dimLength, RepTy.i64, 5⟩⟩

/-- A radius of 7. -/
def rq7 : QuantityKind := ⟨kindRadius, ⟨dimLength, RepTy.i64, 7⟩⟩

/-- A radius of 3. -/
def rq3 : QuantityKind := ⟨kindRadius, ⟨dimLength, RepTy.i64, 3⟩⟩

/-- A dimensionless kind-quantity of 4 with kind kindScalar. -/
def sq4 : QuantityKind := ⟨kindScalar, ⟨dimOne, RepTy.i64, 4⟩⟩

/-- A bare i64 scalar 2. -/
def v2 : Value := ⟨RepTy.i64, 2⟩

/-- A plain time quantity of 2 (i64). -/
def pt2 : Quantity := ⟨⟨0, 1⟩, RepTy.i64, 2⟩

/-- A plain length quantity of 3 (i64). -/
def pl3 : Quantity := ⟨dimLength, RepTy.i64, 3⟩

/-- Any kind the downcast resolution returns has the requested base kind
and the requested dimension. -/
theorem downcast_kind_base_dim (h : List Kind) (b : BaseKind) (d : Dimension) (K : Kind)
    (hK : downcast_kind h b d = some K) : K.base = b ∧ K.dim = d := by
  have := List.find?_some hK
  exact of_decide_eq_true this

/-- The underlying quantity of a downcasted result is the quantity that
was rewrapped, in both the kinded and the plain branch. -/
theorem downcasted_kind_commonQ (h : List Kind) (b : BaseKind) (q : Quantity) :
    (downcasted_kind h b q).commonQ = q := by
  unfold downcasted_kind
  cases downcast_kind h b q.dim <;> rfl

/-- The kind tag of a downcasted result is exactly what the hierarchy's
downcast resolution returns for the quantity's dimension. -/
theorem downcasted_kind_kindOf (h : List Kind) (b : BaseKind) (q : Quantity) :
    (downcasted_kind h b q).kindOf = downcast_kind h b q.dim := by
  unfold downcasted_kind
  cases hdc : downcast_kind h b q.dim <;> rfl

/-- When the hierarchy declares no kind for the quantity's dimension, the
downcasted result is the un-kinded plain quantity. -/
theorem downcasted_kind_plain (h : List Kind) (b : BaseKind) (q : Quantity)
    (hnone : downcast_kind h b q.dim = none) :
    downcasted_kind h b q = QKResult.plain q := by
  unfold downcasted_kind
  rw [hnone]

/-- C1: dividing a scalar s by a kind-quantity q of kind K over dimension D
with base kind B inverts the dimension: the result's underlying quantity
is s / q.common() of dimension 1/D, its kind is downcast_kind(B, 1/D),
and when the hierarchy declares no such kind the result is the un-kinded
plain quantity. -/
theorem scalar_div_quantity_kind_downcast (h : List Kind) (s : Value) (qk : QuantityKind)
    (hwf : qk.wf) (hs : s.ty = qk.q.rep) :
    (valueDivQK h s qk).map QKResult.commonQ =
      some ⟨dimInv qk.kind.dim, qk.q.rep, Int.tdiv s.val qk.q.value⟩ ∧
    (valueDivQK h s qk).map QKResult.kindOf =
      some (downcast_kind h qk.kind.base (dimInv qk.kind.dim)) ∧
    (downcast_kind h qk.kind.base (dimInv qk.kind.dim) = none →
      valueDivQK h s qk =
        some (QKResult.plain ⟨dimInv qk.kind.dim, qk.q.rep, Int.tdiv s.val qk.q.value⟩)) := by
  unfold QuantityKind.wf at hwf
  have hq : qVDiv s qk.q = some ⟨dimInv qk.kind.dim, qk.q.rep, Int.tdiv s.val qk.q.value⟩ := by
    unfold qVDiv
    rw [if_pos hs, hwf]
  unfold valueDivQK
  rw [hq]
  refine ⟨?_, ?_, ?_⟩
  · simp only [Option.map_some']
    rw [downcasted_kind_commonQ]
  · simp only [Option.map_some']
    rw [downcasted_kind_kindOf]
  · intro hnone
    simp only [Option.map_some']
    rw [downcasted_kind_plain h qk.kind.base _ hnone]

/-- Witness for C1 at a concrete input: 2 / (radius 5). -/
theorem scalar_div_quantity_kind_downcast_witness :
    (valueDivQK hierarchy0 v2 rq5).map QKResult.commonQ =
      some ⟨dimInv rq5.kind.dim, rq5.q.rep, Int.tdiv v2.val rq5.q.value⟩ ∧
    (valueDivQK hierarchy0 v2 rq5).map QKResult.kindOf =
      some (downcast_kind hierarchy0 rq5.kind.base (dimInv rq5.kind.dim)) ∧
    (downcast_kind hierarchy0 rq5.kind.base (dimInv rq5.kind.dim) = none →
      valueDivQK hierarchy0 v2 rq5 =
        some (QKResult.plain ⟨dimInv rq5.kind.dim, rq5.q.rep, Int.tdiv v2.val rq5.q.value⟩)) :=
  scalar_div_quantity_kind_downcast hierarchy0 v2 rq5 (by decide) (by decide)

/-- C2: multiplying or dividing a kind-quantity by a bare scalar (in either
multiplication order) keeps exactly the kind of q and wraps the
scalar-scaled underlying quantity. -/
theorem quantity_kind_scalar_ops_preserve_kind (qk : QuantityKind) (s : Value)
    (hs : s.ty = qk.q.rep) :
    qkMulValue qk s = some ⟨qk.kind, ⟨qk.q.dim, qk.q.rep, qk.q.value * s.val⟩⟩ ∧
    valueMulQK s qk = some ⟨qk.kind, ⟨qk.q.dim, qk.q.rep, s.val * qk.q.value⟩⟩ ∧
    qkDivValue qk s = some ⟨qk.kind, ⟨qk.q.dim, qk.q.rep, Int.tdiv qk.q.value s.val⟩⟩ := by
  unfold qkMulValue valueMulQK qkDivValue qMulV qVMul qDivV
  rw [if_pos hs, if_pos hs, if_pos hs]
  exact ⟨rfl, rfl, rfl⟩

/-- Witness for C2 at a concrete input: radius 5 and scalar 2. -/
theorem quantity_kind_scalar_ops_preserve_kind_witness :
    qkMulValue rq5 v2 = some ⟨rq5.kind, ⟨rq5.q.dim, rq5.q.rep, rq5.q.value * v2.val⟩⟩ ∧
    valueMulQK v2 rq5 = some ⟨rq5.kind, ⟨rq5.q.dim, rq5.q.rep, v2.val * rq5.q.value⟩⟩ ∧
    qkDivValue rq5 v2 = some ⟨rq5.kind, ⟨rq5.q.dim, rq5.q.rep, Int.tdiv rq5.q.value v2.val⟩⟩ :=
  quantity_kind_scalar_ops_preserve_kind rq5 v2 (by decide)

/-- C3: multiplying or dividing a kind-quantity by a plain quantity (in
either order for multiplication) multiplies/divides the dimensions and
re-derives the kind as the downcast of the original kind's base kind at
the new dimension. -/
theorem quantity_kind_quantity_ops_downcast (h : List Kind) (qk : QuantityKind) (p : Quantity)
    (hwf : qk.wf) (hrep : qk.q.rep = p.rep) :
    ((qkMulQuantity h qk p).map QKResult.commonQ =
       some ⟨dimMul qk.kind.dim p.dim, qk.q.rep, qk.q.value * p.value⟩ ∧
     (qkMulQuantity h qk p).map QKResult.kindOf =
       some (downcast_kind h qk.kind.base (dimMul qk.kind.dim p.dim))) ∧
    ((quantityMulQK h p qk).map QKResult.commonQ =
       some ⟨dimMul p.dim qk.kind.dim, qk.q.rep, p.value * qk.q.value⟩ ∧
     (quantityMulQK h p qk).map QKResult.kindOf =
       some (downcast_kind h qk.kind.base (dimMul p.dim qk.kind.dim))) ∧
    ((qkDivQuantity h qk p).map QKResult.commonQ =
       some ⟨dimDiv qk.kind.dim p.dim, qk.q.rep, Int.tdiv qk.q.value p.value⟩ ∧
     (qkDivQuantity h qk p).map QKResult.kindOf =
       some (downcast_kind h qk.kind.base (dimDiv qk.kind.dim p.dim))) := by
  unfold QuantityKind.wf at hwf
  have hmul : qMul qk.q p = some ⟨dimMul qk.kind.dim p.dim, qk.q.rep, qk.q.value * p.value⟩ := by
    unfold qMul
    rw [if_pos hrep, hwf]
  have hmul2 : qMul p qk.q = some ⟨dimMul p.dim qk.kind.dim, qk.q.rep, p.value * qk.q.value⟩ := by
    unfold qMul
    rw [if_pos hrep.symm, hwf, hrep]
  have hdiv : qDiv qk.q p =
      some ⟨dimDiv qk.kind.dim p.dim, qk.q.rep, Int.tdiv qk.q.value p.value⟩ := by
    unfold qDiv
    rw [if_pos hrep, hwf]
  unfold qkMulQuantity quantityMulQK qkDivQuantity
  rw [hmul, hmul2, hdiv]
  simp only [Option.map_some']
  exact ⟨⟨by rw [downcasted_kind_commonQ], by rw [downcasted_kind_kindOf]⟩,
    ⟨by rw [downcasted_kind_commonQ], by rw [downcasted_kind_kindOf]⟩,
    ⟨by rw [downcasted_kind_commonQ], by rw [downcasted_kind_kindOf]⟩⟩

/-- Witness for C3 at a concrete input: radius 5 and a plain time
quantity 2. -/
theorem quantity_kind_quantity_ops_downcast_witness :
    ((qkMulQuantity hierarchy0 rq5 pt2).map QKResult.commonQ =
       some ⟨dimMul rq5.kind.dim pt2.dim, rq5.q.rep, rq5.q.value * pt2.value⟩ ∧
     (qkMulQuantity hierarchy0 rq5 pt2).map QKResult.kindOf =
       some (downcast_kind hierarchy0 rq5.kind.base (dimMul rq5.kind.dim pt2.dim))) ∧
    ((quantityMulQK hierarchy0 pt2 rq5).map QKResult.commonQ =
       some ⟨dimMul pt2.dim rq5.kind.dim, rq5.q.rep, pt2.value * rq5.q.value⟩ ∧
     (quantityMulQK hierarchy0 pt2 rq5).map QKResult.kindOf =
       some (downcast_kind hierarchy0 rq5.kind.base (dimMul pt2.dim rq5.kind.dim))) ∧
    ((qkDivQuantity hierarchy0 rq5 pt2).map QKResult.commonQ =
       some ⟨dimDiv rq5.kind.dim pt2.dim, rq5.q.rep, Int.tdiv rq5.q.value pt2.value⟩ ∧
     (qkDivQuantity hierarchy0 rq5 pt2).map QKResult.kindOf =
       some (downcast_kind hierarchy0 rq5.kind.base (dimDiv rq5.kind.dim pt2.dim))) :=
  quantity_kind_quantity_ops_downcast hierarchy0 rq5 pt2 (by decide) (by decide)

/-- C4 counterexample: the compound modulo call q %= qk2 with a
kind-quantity right-hand side does type-check — the operator%= overload
at lines 200-205 accepts the receiver's own quantity_kind type — so the
claim that no such call type-checks is false: radius 7 %= radius 3 is
accepted and yields radius 1. -/
theorem mod_assign_kind_quantity_accepted :
    qkModAssign rq7 (ModRhs.kindQuantity rq3) =
      some ⟨kindRadius, ⟨dimLength, RepTy.i64, 1⟩⟩ := by decide

/-- C4 (amended): compound modulo on a kind-quantity is rejected at build
time when the right-hand side is a plain (un-kinded) quantity; a
right-hand side that is an equivalent kind-quantity is accepted and is
kind-preserving. -/
theorem mod_assign_gating_amended (qk qk2 : QuantityKind) (p : Quantity)
    (heq : equivalentQK qk qk2) :
    qkModAssign qk (ModRhs.plainQuantity p) = none ∧
    qkModAssign qk (ModRhs.kindQuantity qk2) =
      some ⟨qk.kind, ⟨qk.q.dim, qk.q.rep, Int.tmod qk.q.value qk2.q.value⟩⟩ := by
  obtain ⟨hb, hd, hr⟩ := heq
  refine ⟨rfl, ?_⟩
  simp only [qkModAssign]
  rw [if_pos ⟨hb, hd, hr⟩]
  unfold qModQ
  rw [if_pos ⟨hd, hr⟩]
  rfl

/-- Witness for the amended C4 at a concrete input: radius 7 with a plain
length quantity 3 and with radius 3. -/
theorem mod_assign_gating_amended_witness :
    qkModAssign rq7 (ModRhs.plainQuantity pl3) = none ∧
    qkModAssign rq7 (ModRhs.kindQuantity rq3) =
      some ⟨rq7.kind, ⟨rq7.q.dim, rq7.q.rep, Int.tmod rq7.q.value rq3.q.value⟩⟩ :=
  mod_assign_gating_amended rq7 rq3 pl3 (by decide)

/-- C5: the compound modulo overload set accepts a bare numeric value and
an equivalent kind-quantity, kind-preserving in both cases and replacing
the embedded quantity with the modulo result, and rejects a plain
quantity right-hand side at build time (no overload matches: the Rep2
overload requires a non-quantity, lines 192-198). -/
theorem mod_assign_overloads (qk : QuantityKind) (v : Value) (qk2 : QuantityKind) (p : Quantity)
    (hv : v.ty = qk.q.rep) (heq : equivalentQK qk qk2) :
    qkModAssign qk (ModRhs.value v) =
      some ⟨qk.kind, ⟨qk.q.dim, qk.q.rep, Int.tmod qk.q.value v.val⟩⟩ ∧
    qkModAssign qk (ModRhs.kindQuantity qk2) =
      some ⟨qk.kind, ⟨qk.q.dim, qk.q.rep, Int.tmod qk.q.value qk2.q.value⟩⟩ ∧
    qkModAssign qk (ModRhs.plainQuantity p) = none := by
  obtain ⟨hb, hd, hr⟩ := heq
  refine ⟨?_, ?_, rfl⟩
  · simp only [qkModAssign]
    unfold qModV
    rw [if_pos hv]
    rfl
  · simp only [qkModAssign]
    rw [if_pos ⟨hb, hd, hr⟩]
    unfold qModQ
    rw [if_pos ⟨hd, hr⟩]
    rfl

/-- Witness for C5 at a concrete input: radius 5 with scalar 2, radius 3
and a plain time quantity 2. -/
theorem mod_assign_overloads_witness :
    qkModAssign rq5 (ModRhs.value v2) =
      some ⟨rq5.kind, ⟨rq5.q.dim, rq5.q.rep, Int.tmod rq5.q.value v2.val⟩⟩ ∧
    qkModAssign rq5 (ModRhs.kindQuantity rq3) =
      some ⟨rq5.kind, ⟨rq5.q.dim, rq5.q.rep, Int.tmod rq5.q.value rq3.q.value⟩⟩ ∧
    qkModAssign rq5 (ModRhs.plainQuantity pt2) = none :=
  mod_assign_overloads rq5 v2 rq3 pt2 (by decide) (by decide)

/-- C6: round-trip — constructing a kind-quantity of q's own type from the
extracted underlying quantity q.common() type-checks and yields a
kind-quantity equal to q. -/
theorem round_trip_common_ctor (qk : QuantityKind) (hwf : qk.wf) :
    qkOfQuantity qk.kind qk.q.rep (qkCommon qk) = some qk ∧ qkEq qk qk = some true := by
  unfold QuantityKind.wf at hwf
  constructor
  · unfold qkOfQuantity qkCommon
    rw [if_pos ⟨hwf, rfl⟩]
  · unfold qkEq
    rw [if_pos ⟨rfl, rfl, rfl⟩]
    simp

/-- Witness for C6 at a concrete input: radius 5. -/
theorem round_trip_common_ctor_witness :
    qkOfQuantity rq5.kind rq5.q.rep (qkCommon rq5) = some rq5 ∧ qkEq rq5 rq5 = some true :=
  round_trip_common_ctor rq5 (by decide)

/-- The first identity law of the spec, q + Kind::zero() == q, evaluated
through the embedded operators: true when the sum exists and the
equality comparison with q type-checks and holds. -/
def addZeroIdentity (qk : QuantityKind) : Bool :=
  match qkAdd qk (qkZero qk.kind qk.q.rep) with
  | some r => decide (qkEq r qk = some true)
  | none => false

/-- The second identity law of the spec, q * Kind::one().common() == q,
evaluated through the embedded operators: the product runs through the
dimension-changing operator* (quantity_kind, quantity), so it is true
only when the result is a kind-quantity whose comparison with q
type-checks and holds. -/
def mulOneIdentity (h : List Kind) (qk : QuantityKind) : Bool :=
  match qkMulQuantity h qk (qkCommon (qkOne qk.kind qk.q.rep)) with
  | some (QKResult.kinded r) => decide (qkEq r qk = some true)
  | _ => false

/-- C7 counterexample: for radius 5 (an i64 length kind, for which zero()
and one() exist) the first identity law holds but the second fails —
one() carries the kind's own length dimension, so q * one().common()
has dimension length squared and its comparison with q is rejected. -/
theorem mul_one_identity_fails_for_length :
    addZeroIdentity rq5 = true ∧ mulOneIdentity hierarchy0 rq5 = false := by decide

/-- C7 (amended): q + Kind::zero() == q holds for every well-formed
kind-quantity; q * Kind::one().common() == q holds when the kind's
dimension is the dimensionless one dimension and the hierarchy downcasts
the base kind at that dimension to some kind — for any other dimension
the product has a different dimension than q and the comparison itself
is rejected at build time. -/
theorem identity_laws_amended (h : List Kind) (qk : QuantityKind) (hwf : qk.wf) :
    addZeroIdentity qk = true ∧
    (qk.kind.dim = dimOne → (downcast_kind h qk.kind.base dimOne).isSome →
      mulOneIdentity h qk = true) := by
  unfold QuantityKind.wf at hwf
  constructor
  · have heq : equivalentQK qk (qkZero qk.kind qk.q.rep) := ⟨rfl, hwf, rfl⟩
    have hadd : qkAdd qk (qkZero qk.kind qk.q.rep) =
        some ⟨qk.kind, ⟨qk.q.dim, qk.q.rep, qk.q.value + 0⟩⟩ := by
      unfold qkAdd
      rw [if_pos heq]
      unfold qAdd
      rw [if_pos ⟨hwf, rfl⟩]
      rfl
    unfold addZeroIdentity
    rw [hadd]
    have hE : qkEq ⟨qk.kind, ⟨qk.q.dim, qk.q.rep, qk.q.value⟩⟩ qk = some true := by
      unfold qkEq
      rw [if_pos ⟨rfl, rfl, rfl⟩]
      simp
    simp [hE]
  · intro hone hdc
    obtain ⟨K, hK⟩ := Option.isSome_iff_exists.mp hdc
    obtain ⟨hKb, hKd⟩ := downcast_kind_base_dim h qk.kind.base dimOne K hK
    unfold mulOneIdentity qkMulQuantity qkCommon qkOne
    have hmul : qMul qk.q ⟨qk.kind.dim, qk.q.rep, 1⟩ =
        some ⟨dimOne, qk.q.rep, qk.q.value * 1⟩ := by
      unfold qMul
      rw [if_pos rfl, hwf, hone]
      rfl
    rw [hmul]
    simp only [Option.map_some']
    have hplain : downcasted_kind h qk.kind.base ⟨dimOne, qk.q.rep, qk.q.value * 1⟩ =
        QKResult.kinded ⟨K, ⟨dimOne, qk.q.rep, qk.q.value * 1⟩⟩ := by
      unfold downcasted_kind
      rw [show downcast_kind h qk.kind.base (Quantity.dim ⟨dimOne, qk.q.rep, qk.q.value * 1⟩) =
            some K from hK]
      rfl
    rw [hplain]
    have hE : qkEq ⟨K, ⟨dimOne, qk.q.rep, qk.q.value⟩⟩ qk = some true := by
      unfold qkEq
      rw [if_pos ⟨hKb, (hwf.trans hone).symm, rfl⟩]
      simp
    simp [hE]

/-- Witness for the amended C7 at a concrete input: the dimensionless
kind-quantity 4, whose kind is declared in the hierarchy. -/
theorem identity_laws_amended_witness :
    addZeroIdentity sq4 = true ∧ mulOneIdentity hierarchy0 sq4 = true := by
  have h := identity_laws_amended hierarchy0 sq4 (by decide)
  exact ⟨h.1, h.2 (by decide) (by decide)⟩

/-- C8: the binary operators +, - and % on two equivalent kind-quantities
return a kind-quantity tagged with the left operand's kind, wrapping the
quantity-level combination of lhs.common() and rhs.common();
the dimension is preserved. -/
theorem equivalent_binary_ops_left_kind (a b : QuantityKind) (heq : equivalentQK a b) :
    qkAdd a b = some ⟨a.kind, ⟨a.q.dim, a.q.rep, a.q.value + b.q.value⟩⟩ ∧
    qkSub a b = some ⟨a.kind, ⟨a.q.dim, a.q.rep, a.q.value - b.q.value⟩⟩ ∧
    qkMod a b = some ⟨a.kind, ⟨a.q.dim, a.q.rep, Int.tmod a.q.value b.q.value⟩⟩ := by
  obtain ⟨hb, hd, hr⟩ := heq
  unfold qkAdd qkSub qkMod
  rw [if_pos ⟨hb, hd, hr⟩, if_pos ⟨hb, hd, hr⟩, if_pos ⟨hb, hd, hr⟩]
  unfold qAdd qSub qModQ
  rw [if_pos ⟨hd, hr⟩, if_pos ⟨hd, hr⟩, if_pos ⟨hd, hr⟩]
  exact ⟨rfl, rfl, rfl⟩

/-- Witness for C8 at a concrete input: radius 7 and radius 3. -/
theorem equivalent_binary_ops_left_kind_witness :
    qkAdd rq7 rq3 = some ⟨rq7.kind, ⟨rq7.q.dim, rq7.q.rep, rq7.q.value + rq3.q.value⟩⟩ ∧
    qkSub rq7 rq3 = some ⟨rq7.kind, ⟨rq7.q.dim, rq7.q.rep, rq7.q.value - rq3.q.value⟩⟩ ∧
    qkMod rq7 rq3 = some ⟨rq7.kind, ⟨rq7.q.dim, rq7.q.rep, Int.tmod rq7.q.value rq3.q.value⟩⟩ :=
  equivalent_binary_ops_left_kind rq7 rq3 (by decide)

/-- C9: construction of a kind-quantity from a bare numeric value
type-checks exactly when the kind's dimension is the dimensionless one
dimension and the value is safely convertible to the representation. -/
theorem ctor_from_value_gating (K : Kind) (rep : RepTy) (v : Value) :
    (qkOfValue K rep v).isSome ↔ (K.dim = dimOne ∧ safe_convertible v.ty rep = true) := by
  unfold qkOfValue
  split <;> simp_all

/-- C10: the postfix increment and decrement return a kind-quantity
holding the value the receiver had before the mutation while the
receiver's embedded quantity is incremented/decremented in place, and
the prefix forms return the already-mutated receiver itself. -/
theorem inc_dec_semantics (qk : QuantityKind) :
    (qkPostInc qk).1 = qk ∧ (qkPostInc qk).2 = ⟨qk.kind, qInc qk.q⟩ ∧
    (qkPostDec qk).1 = qk ∧ (qkPostDec qk).2 = ⟨qk.kind, qDec qk.q⟩ ∧
    (qkPreInc qk).1 = (qkPreInc qk).2 ∧ (qkPreInc qk).2 = ⟨qk.kind, qInc qk.q⟩ ∧
    (qkPreDec qk).1 = (qkPreDec qk).2 ∧ (qkPreDec qk).2 = ⟨qk.kind, qDec qk.q⟩ :=
  ⟨rfl, rfl, rfl, rfl, rfl, rfl, rfl, rfl⟩

end UnitsQK
